import Mathlib

/-!
Verification of the Credit Ledger + Slot Scheduler core of the passeiopet
application, as implemented in src/hooks/usePacks.ts, src/types/index.ts and
the SchedulePage / PackForm components.

The embedding models the Firestore document store as an explicit state
(lists of Pack, Operation and ScheduledService records), and each Firestore
transaction as a pure function from that state to Except LedgerError state:
a thrown error inside runTransaction aborts every staged write, which the
function dbAfter makes explicit.

Numbers stored in documents (credits, weights) are JS numbers used at integer
values; they are modelled as Int. Timestamps are modelled as Int (epoch
instants); document ids as Nat.
-/

namespace PasseioPet

/-- Booking/operation type, from src/types/index.ts. The source literal
written p-a-r-t-i-a-l (UI label Parcial) is rendered here as parcial, since
that word is a reserved keyword in Lean. -/
inductive OperationType where
  | walk
  | full_day
  | parcial
deriving DecidableEq, Repr

/-- OPERATION_WEIGHTS from src/types/index.ts: walk 1, full_day 2, parcial 1. -/
def OPERATION_WEIGHTS : OperationType → Int
  | .walk => 1
  | .full_day => 2
  | .parcial => 1

/-- ServiceType from src/types/index.ts. -/
inductive ServiceType where
  | walk
  | sitter
deriving DecidableEq, Repr

/-- ScheduleStatus from src/types/index.ts. -/
inductive ScheduleStatus where
  | scheduled
  | completed
  | cancelled
  | not_done
deriving DecidableEq, Repr

/-- Pack document (the fields the ledger reads and writes). -/
structure Pack where
  id : Nat
  clientId : Nat
  serviceType : ServiceType
  totalCredits : Int
  usedCredits : Int
  isActive : Bool
deriving DecidableEq, Repr

/-- Operation (ledger entry) document. -/
structure Operation where
  id : Nat
  packId : Nat
  clientId : Nat
  date : Int
  type : OperationType
  weight : Int
deriving DecidableEq, Repr

/-- ScheduledService (booking) document. -/
structure ScheduledService where
  id : Nat
  clientId : Nat
  packId : Option Nat
  scheduledDate : Int
  scheduledTime : String
  type : OperationType
  status : ScheduleStatus
  completedAt : Option Int
deriving DecidableEq, Repr

/-- The relevant slice of the Firestore database. -/
structure DB where
  packs : List Pack
  operations : List Operation
  services : List ScheduledService
deriving DecidableEq, Repr

/-- The errors thrown inside the ledger transactions: packNotFound is the
thrown message Pacote nao encontrado, insufficientCredits is Creditos
insuficientes no pacote. -/
inductive LedgerError where
  | packNotFound
  | insufficientCredits
deriving DecidableEq, Repr

/-- Model of doc(db, COLLECTION, id) followed by get: first document whose id
matches (Firestore ids are unique, so first = only). -/
def findById {α : Type} (key : α → Nat) (k : Nat) (l : List α) : Option α :=
  l.find? fun a => decide (key a = k)

/-- Model of transaction.update on the document with the given id: replaces
the fields of every record whose id matches. -/
def updateById {α : Type} (key : α → Nat) (k : Nat) (f : α → α) (l : List α) : List α :=
  l.map fun a => if key a = k then f a else a

def findPack (packs : List Pack) (pid : Nat) : Option Pack :=
  findById Pack.id pid packs

def findService (services : List ScheduledService) (sid : Nat) : Option ScheduledService :=
  findById ScheduledService.id sid services

/-- completeService from src/hooks/usePacks.ts lines 336-397. The argument
now models Timestamp.now(), opId the fresh id of doc(collection(OPERATIONS)). -/
def completeService (service : ScheduledService) (now : Int) (opId : Nat)
    (db : DB) : Except LedgerError DB :=
  let weight := OPERATION_WEIGHTS service.type
  match service.packId with
  | some pid =>
    match findPack db.packs pid with
    | none => .error .packNotFound
    | some packData =>
      let newUsedCredits := packData.usedCredits + weight
      if newUsedCredits > packData.totalCredits then
        .error .insufficientCredits
      else
        let operationData : Operation :=
          { id := opId
            packId := pid
            clientId := service.clientId
            date := service.scheduledDate
            type := service.type
            weight := weight }
        .ok { db with
          packs := updateById Pack.id pid
            (fun p => { p with
              usedCredits := newUsedCredits
              isActive := if newUsedCredits ≥ packData.totalCredits then false else p.isActive })
            db.packs
          operations := db.operations ++ [operationData]
          services := updateById ScheduledService.id service.id
            (fun s => { s with status := .completed, completedAt := some now })
            db.services }
  | none =>
    .ok { db with
      services := updateById ScheduledService.id service.id
        (fun s => { s with status := .completed, completedAt := some now })
        db.services }

/-- The reversal query predicate from src/hooks/usePacks.ts lines 432-437:
an Operation matches when its packId, clientId and date equal the packId,
clientId and scheduledDate of the booking being reverted. -/
def operationMatches (service : ScheduledService) (pid : Nat) (op : Operation) : Bool :=
  decide (op.packId = pid) && decide (op.clientId = service.clientId)
    && decide (op.date = service.scheduledDate)

/-- revertServiceStatus from src/hooks/usePacks.ts lines 410-471. -/
def revertServiceStatus (service : ScheduledService) (db : DB) : Except LedgerError DB :=
  let weight := OPERATION_WEIGHTS service.type
  match service.status, service.packId with
  | .completed, some pid =>
    match findPack db.packs pid with
    | none => .error .packNotFound
    | some packData =>
      let newUsedCredits := max 0 (packData.usedCredits - weight)
      .ok { db with
        operations := db.operations.filter fun op => !(operationMatches service pid op)
        packs := updateById Pack.id pid
          (fun p => { p with usedCredits := newUsedCredits, isActive := true })
          db.packs
        services := updateById ScheduledService.id service.id
          (fun s => { s with status := .scheduled, completedAt := none })
          db.services }
  | _, _ =>
    .ok { db with
      services := updateById ScheduledService.id service.id
        (fun s => { s with status := .scheduled, completedAt := none })
        db.services }

/-- Firestore abort semantics of runTransaction: a thrown error discards all
staged writes, so on error the database is unchanged. -/
def dbAfter (r : Except LedgerError DB) (db : DB) : DB :=
  match r with
  | .ok db' => db'
  | .error _ => db

/-- The client-side filter of usePacks.ts lines 219-221: the schedule keeps
scheduled, completed and not_done services and drops cancelled ones. -/
def isActiveService (s : ScheduledService) : Bool :=
  decide (s.status = .scheduled) || decide (s.status = .completed)
    || decide (s.status = .not_done)

def activeServices (services : List ScheduledService) : List ScheduledService :=
  services.filter isActiveService

/-- PackForm handleSubmit (ClientsPage): totalCredits is 9999 when the
serviceType is sitter (comment in source: Ilimitado para sitter), otherwise
the total chosen on the form. -/
def packFormTotalCredits (serviceType : ServiceType) (formTotalCredits : Int) : Int :=
  if serviceType = .sitter then 9999 else formTotalCredits

/-! ### Recurrence expander (ScheduleForm in SchedulePage)

Calendar dates are modelled as day numbers: the count of days since
1970-01-01, the representation underlying the JS Date arithmetic that the
form performs. daysFromCivil is the standard proleptic-Gregorian conversion
from a year/month/day triple to that day number, and getDay is the JS
Date getDay weekday (0 = Sunday .. 6 = Saturday; the 1970 epoch fell on a
Thursday, weekday 4). -/

/-- Day number since 1970-01-01 of the civil date y-m-d. -/
def daysFromCivil (y m d : Int) : Int :=
  let y2 := if m ≤ 2 then y - 1 else y
  let era := (if 0 ≤ y2 then y2 else y2 - 399) / 400
  let yoe := y2 - era * 400
  let mp := (m + 9) % 12
  let doy := (153 * mp + 2) / 5 + d - 1
  let doe := yoe * 365 + yoe / 4 - yoe / 100 + doy
  era * 146097 + doe - 719468

/-- JS Date getDay on a day number. -/
def getDay (n : Int) : Int :=
  (n + 4) % 7

/-- The body of the while loop of generateRecurringDates: fuel counts the
remaining iterations (one per calendar day from the current day to the end
day), d is currentDate, and a day is kept when its weekday is in
selectedWeekdays. -/
def genLoop (selectedWeekdays : List Int) : Nat → Int → List Int
  | 0, _ => []
  | fuel + 1, d =>
    (if selectedWeekdays.contains (getDay d) then [d] else [])
      ++ genLoop selectedWeekdays fuel (d + 1)

/-- generateRecurringDates from SchedulePage (ScheduleForm, lines 1173-1191):
walks day by day from startDate while currentDate is at most endDate,
collecting the days whose weekday is in selectedWeekdays. The number of
iterations of the while loop is endDate + 1 - startDate (zero when the end
precedes the start). -/
def generateRecurringDates (startDate endDate : Int) (selectedWeekdays : List Int) : List Int :=
  genLoop selectedWeekdays (endDate + 1 - startDate).toNat startDate

/-- The recurrence part of ScheduleForm validate (lines 1157-1170): the form
is valid only when at least one weekday is selected and the recurrence end
date is strictly after the scheduled start date (the source compares the ISO
date strings, which agrees with comparing day numbers). -/
def recurrenceValid (scheduledDate recurrenceEndDate : Int) (selectedWeekdays : List Int) : Bool :=
  !selectedWeekdays.isEmpty && decide (scheduledDate < recurrenceEndDate)

/-- handleSubmit for a recurring booking: if validate fails it returns before
creating anything (none); otherwise it expands the recurrence and creates one
booking per date (some dates). -/
def handleSubmitRecurring (scheduledDate recurrenceEndDate : Int)
    (selectedWeekdays : List Int) : Option (List Int) :=
  if recurrenceValid scheduledDate recurrenceEndDate selectedWeekdays then
    some (generateRecurringDates scheduledDate recurrenceEndDate selectedWeekdays)
  else
    none

/-! ### Slot grid (SchedulePage) -/

/-- One entry of the TIME_SLOTS catalog. -/
structure TimeSlot where
  value : String
  label : String
  labelFull : String
deriving DecidableEq, Repr

instance : Inhabited TimeSlot := ⟨⟨"", "", ""⟩⟩

/-- TIME_SLOTS from SchedulePage lines 979-993: the fixed catalog of
half-hour slots of the operating day. -/
def TIME_SLOTS : List TimeSlot :=
  [ ⟨"06:50-07:20", "06h50", "06h50-07h20"⟩
  , ⟨"07:30-08:00", "07h30", "07h30-08h00"⟩
  , ⟨"08:00-08:30", "08h00", "08h00-08h30"⟩
  , ⟨"09:00-09:30", "09h00", "09h00-09h30"⟩
  , ⟨"09:30-10:00", "09h30", "09h30-10h00"⟩
  , ⟨"10:30-11:00", "10h30", "10h30-11h00"⟩
  , ⟨"11:00-11:30", "11h00", "11h00-11h30"⟩
  , ⟨"14:30-15:00", "14h30", "14h30-15h00"⟩
  , ⟨"15:00-15:30", "15h00", "15h00-15h30"⟩
  , ⟨"16:00-16:30", "16h00", "16h00-16h30"⟩
  , ⟨"16:30-17:00", "16h30", "16h30-17h00"⟩
  , ⟨"17:30-18:00", "17h30", "17h30-18h00"⟩
  , ⟨"18:00-18:30", "18h00", "18h00-18h30"⟩ ]

/-- The durations offered by the schedule form (DURATION_OPTIONS values, the
inhabitants of the ServiceDuration type): 30, 60, 90, 120 minutes. -/
def DURATION_OPTIONS : List Nat := [30, 60, 90, 120]

/-- getOccupiedSlots from SchedulePage lines 1020-1032: an unrecognized start
slot yields the singleton of the raw start code; a recognized one yields
Math.ceil(duration / 30) consecutive catalog codes starting at its index,
stopping early at the end of the catalog (the && bound of the for loop). -/
def getOccupiedSlots (startSlot : String) (duration : Nat) : List String :=
  match TIME_SLOTS.findIdx? (fun s => s.value == startSlot) with
  | none => [startSlot]
  | some startIndex =>
    let slotsNeeded := (duration + 29) / 30
    ((List.range slotsNeeded).takeWhile fun i =>
        decide (startIndex + i < TIME_SLOTS.length)).map
      fun i => (TIME_SLOTS.getD (startIndex + i) default).value

/-! ### Helper lemmas about the store model -/

theorem weight_pos (t : OperationType) : 1 ≤ OPERATION_WEIGHTS t := by
  cases t <;> simp [OPERATION_WEIGHTS]

theorem findById_updateById {α : Type} (key : α → Nat) (k : Nat) (f : α → α)
    (hf : ∀ a, key (f a) = key a) (l : List α) :
    findById key k (updateById key k f l) = (findById key k l).map f := by
  induction l with
  | nil => simp [findById, updateById]
  | cons a t ih =>
    by_cases h : key a = k
    · simp [findById, updateById, List.find?, h, hf]
    · simpa [findById, updateById, List.find?, h, hf] using ih

theorem findById_of_mem {α : Type} (key : α → Nat) (k : Nat) (l : List α)
    (hu : l.Pairwise fun a b => key a ≠ key b)
    (a : α) (ha : a ∈ l) (hk : key a = k) :
    findById key k l = some a := by
  induction l with
  | nil => simp at ha
  | cons b t ih =>
    rcases List.mem_cons.mp ha with rfl | hat
    · simp [findById, List.find?, hk]
    · have hbk : key b ≠ k := by
        have := (List.pairwise_cons.mp hu).1 a hat
        omega
      have ih' := ih (List.pairwise_cons.mp hu).2 hat
      simpa [findById, List.find?, hbk] using ih'

theorem mem_updateById {α : Type} (key : α → Nat) (k : Nat) (f : α → α)
    (l : List α) (p : α) (hp : p ∈ updateById key k f l) :
    ∃ a ∈ l, p = if key a = k then f a else a := by
  simpa [updateById, eq_comm] using hp

/-! ### C2: a failed debit surfaces InsufficientCredits and changes nothing -/

/-- C2: for every finite-capacity Pack and booking type, if
totalCredits - usedCredits < weight(type), completing a pack-linked scheduled
booking fails with the InsufficientCredits error, and (by the abort semantics
of the store transaction, dbAfter) the Pack is unchanged, no Operation is
created and the booking is still scheduled with completedAt unset. -/
theorem completeService_insufficient (db : DB) (service : ScheduledService)
    (now : Int) (opId : Nat) (pid : Nat) (packData : Pack)
    (_hstatus : service.status = .scheduled)
    (hpid : service.packId = some pid)
    (hfind : findPack db.packs pid = some packData)
    (hrem : packData.totalCredits - packData.usedCredits < OPERATION_WEIGHTS service.type) :
    completeService service now opId db = .error .insufficientCredits ∧
      dbAfter (completeService service now opId db) db = db := by
  have h : completeService service now opId db = .error .insufficientCredits := by
    simp only [completeService, hpid, hfind]
    rw [if_pos (by omega)]
  exact ⟨h, by rw [h]; rfl⟩

/-- C2 witness: the spec scenario Pack(total = 8, used = 7) with a full_day
completion (weight 2) fails with InsufficientCredits and leaves the store
untouched. -/
theorem completeService_insufficient_witness :
    completeService
        { id := 10, clientId := 2, packId := some 1, scheduledDate := 100,
          scheduledTime := "07:30-08:00", type := .full_day,
          status := .scheduled, completedAt := none }
        500 77
        { packs := [{ id := 1, clientId := 2, serviceType := .walk,
                      totalCredits := 8, usedCredits := 7, isActive := true }],
          operations := [], services :=
            [{ id := 10, clientId := 2, packId := some 1, scheduledDate := 100,
               scheduledTime := "07:30-08:00", type := .full_day,
               status := .scheduled, completedAt := none }] }
      = .error .insufficientCredits :=
  (completeService_insufficient _ _ 500 77 1
      { id := 1, clientId := 2, serviceType := .walk,
        totalCredits := 8, usedCredits := 7, isActive := true }
      rfl rfl (by decide) (by decide)).1

/-! ### C3: a successful debit updates the pack, records one Operation and
completes the booking -/

/-- C3: for every pack-linked scheduled booking whose Pack exists and has
usedCredits + weight(type) at most totalCredits, complete succeeds; the Pack
usedCredits grows by exactly weight(type), isActive becomes false exactly
when the new usedCredits reaches totalCredits, exactly one new Operation is
appended carrying the booking packId, clientId, weight (and its
scheduledDate as date), and the booking becomes completed with completedAt
set. -/
theorem completeService_ok (db : DB) (service : ScheduledService)
    (now : Int) (opId : Nat) (pid : Nat) (packData : Pack)
    (_hstatus : service.status = .scheduled)
    (hpid : service.packId = some pid)
    (hfind : findPack db.packs pid = some packData)
    (hcap : packData.usedCredits + OPERATION_WEIGHTS service.type ≤ packData.totalCredits) :
    (∃ db', completeService service now opId db = .ok db') ∧
    ∀ db', completeService service now opId db = .ok db' →
      db'.operations = db.operations ++
        [{ id := opId, packId := pid, clientId := service.clientId,
           date := service.scheduledDate, type := service.type,
           weight := OPERATION_WEIGHTS service.type }] ∧
      findPack db'.packs pid = some { packData with
        usedCredits := packData.usedCredits + OPERATION_WEIGHTS service.type,
        isActive :=
          if packData.usedCredits + OPERATION_WEIGHTS service.type ≥ packData.totalCredits
          then false else packData.isActive } ∧
      ∀ s ∈ db'.services, s.id = service.id →
        s.status = .completed ∧ s.completedAt = some now := by
  have hrun : completeService service now opId db = .ok
      { db with
        packs := updateById Pack.id pid
          (fun p => { p with
            usedCredits := packData.usedCredits + OPERATION_WEIGHTS service.type
            isActive :=
              if packData.usedCredits + OPERATION_WEIGHTS service.type ≥ packData.totalCredits
              then false else p.isActive })
          db.packs
        operations := db.operations ++
          [{ id := opId, packId := pid, clientId := service.clientId,
             date := service.scheduledDate, type := service.type,
             weight := OPERATION_WEIGHTS service.type }]
        services := updateById ScheduledService.id service.id
          (fun s => { s with status := .completed, completedAt := some now })
          db.services } := by
    simp only [completeService, hpid, hfind]
    rw [if_neg (by omega)]
  refine ⟨⟨_, hrun⟩, fun db' hdb' => ?_⟩
  rw [hrun] at hdb'
  cases hdb'
  refine ⟨rfl, ?_, ?_⟩
  · have h1 := findById_updateById Pack.id pid
      (fun p => { p with
        usedCredits := packData.usedCredits + OPERATION_WEIGHTS service.type
        isActive :=
          if packData.usedCredits + OPERATION_WEIGHTS service.type ≥ packData.totalCredits
          then false else p.isActive })
      (fun p => rfl) db.packs
    have h2 : findById Pack.id pid db.packs = some packData := hfind
    exact h1.trans (by rw [h2]; rfl)
  · intro s hs hsid
    obtain ⟨a, _, ha⟩ := mem_updateById ScheduledService.id service.id _ db.services s hs
    by_cases hid : a.id = service.id
    · rw [if_pos hid] at ha
      subst ha
      exact ⟨rfl, rfl⟩
    · rw [if_neg hid] at ha
      subst ha
      exact absurd hsid hid

/-- Concrete pack of the spec scenario: total 8, used 7, active. -/
def c3pack : Pack :=
  { id := 1, clientId := 2, serviceType := .walk,
    totalCredits := 8, usedCredits := 7, isActive := true }

/-- Concrete scheduled walk booking linked to c3pack. -/
def c3svc : ScheduledService :=
  { id := 10, clientId := 2, packId := some 1, scheduledDate := 100,
    scheduledTime := "07:30-08:00", type := .walk,
    status := .scheduled, completedAt := none }

/-- Concrete store holding c3pack and c3svc. -/
def c3db : DB := { packs := [c3pack], operations := [], services := [c3svc] }

/-- C3 witness: the spec scenario Pack(total = 8, used = 7) plus complete of a
walk: afterwards exactly one Operation of weight 1 exists and the pack reads
used = 8, isActive = false. -/
theorem completeService_ok_witness :
    (dbAfter (completeService c3svc 500 77 c3db) c3db).operations
        = [{ id := 77, packId := 1, clientId := 2, date := 100,
             type := .walk, weight := 1 }] ∧
      findPack (dbAfter (completeService c3svc 500 77 c3db) c3db).packs 1
        = some { id := 1, clientId := 2, serviceType := .walk,
                 totalCredits := 8, usedCredits := 8, isActive := false } := by
  obtain ⟨⟨db', hdb'⟩, h2⟩ :=
    completeService_ok c3db c3svc 500 77 1 c3pack rfl rfl rfl (by decide)
  obtain ⟨hops, hpk, -⟩ := h2 db' hdb'
  rw [hdb']
  exact ⟨hops.trans (by decide), hpk.trans (by decide)⟩

/-! ### C1: ledger operations preserve the pack balance invariant -/

/-- C1: every Pack satisfying 0 ≤ usedCredits ≤ totalCredits still satisfies
it after any single ledger operation, whether the debit performed by
completing a pack-linked booking or the credit performed by reverting one.
The Pairwise hypothesis states that pack document ids are unique, which the
document store guarantees structurally. -/
theorem ledger_preserves_invariant (db : DB) (service : ScheduledService)
    (now : Int) (opId : Nat) (db' : DB)
    (hu : db.packs.Pairwise fun a b => a.id ≠ b.id)
    (hinv : ∀ p ∈ db.packs, 0 ≤ p.usedCredits ∧ p.usedCredits ≤ p.totalCredits)
    (hstep : completeService service now opId db = .ok db' ∨
      revertServiceStatus service db = .ok db') :
    ∀ p ∈ db'.packs, 0 ≤ p.usedCredits ∧ p.usedCredits ≤ p.totalCredits := by
  have hw := weight_pos service.type
  rcases hstep with h | h
  · rcases hpk : service.packId with - | pid
    · simp only [completeService, hpk] at h
      cases h
      exact hinv
    · rcases hfind : findPack db.packs pid with - | packData
      · simp [completeService, hpk, hfind] at h
      · have hmem : packData ∈ db.packs := by
          have := List.mem_of_find?_eq_some hfind
          exact this
        simp only [completeService, hpk, hfind] at h
        split at h
        · cases h
        · cases h
          intro p hp
          obtain ⟨a, hal, ha⟩ := mem_updateById Pack.id pid _ db.packs p hp
          by_cases hid : a.id = pid
          · have hfa : findPack db.packs pid = some a :=
              findById_of_mem Pack.id pid db.packs hu a hal hid
            have haeq : a = packData := by
              rw [hfa] at hfind
              exact Option.some.inj hfind
            rw [if_pos hid] at ha
            subst ha
            subst haeq
            have h1 := hinv _ hal
            simp only
            constructor
            · omega
            · omega
      -- the split tactic above handled both branches of the capacity check
          · rw [if_neg hid] at ha
            subst ha
            exact hinv _ hal
  · rcases hst : service.status with - | - | - | -
    all_goals rcases hpk : service.packId with - | pid
    all_goals simp only [revertServiceStatus, hst, hpk] at h
    all_goals try (cases h; exact hinv)
    rcases hfind : findPack db.packs pid with - | packData
    · simp [hfind] at h
    · have hmem : packData ∈ db.packs := List.mem_of_find?_eq_some hfind
      rw [hfind] at h
      cases h
      intro p hp
      obtain ⟨a, hal, ha⟩ := mem_updateById Pack.id pid _ db.packs p hp
      by_cases hid : a.id = pid
      · have hfa : findPack db.packs pid = some a :=
          findById_of_mem Pack.id pid db.packs hu a hal hid
        have haeq : a = packData := by
          rw [hfa] at hfind
          exact Option.some.inj hfind
        rw [if_pos hid] at ha
        subst ha
        subst haeq
        have h1 := hinv _ hal
        simp only
        constructor
        · omega
        · omega
      · rw [if_neg hid] at ha
        subst ha
        exact hinv _ hal

/-- C1 witness: the invariant holds for the concrete pack after the concrete
walk completion on the total 8 / used 7 store. -/
theorem ledger_preserves_invariant_witness :
    0 ≤ ({ id := 1, clientId := 2, serviceType := ServiceType.walk,
           totalCredits := 8, usedCredits := 8, isActive := false } : Pack).usedCredits ∧
      ({ id := 1, clientId := 2, serviceType := ServiceType.walk,
         totalCredits := 8, usedCredits := 8, isActive := false } : Pack).usedCredits
        ≤ ({ id := 1, clientId := 2, serviceType := ServiceType.walk,
             totalCredits := 8, usedCredits := 8, isActive := false } : Pack).totalCredits := by
  have h := ledger_preserves_invariant c3db c3svc 500 77
    (dbAfter (completeService c3svc 500 77 c3db) c3db)
    (by simp [c3db]) (by decide) (Or.inl rfl)
  exact h _ (by decide)

/-! ### C4: complete then revert is a round trip -/

/-- C4: for every pack-linked scheduled booking whose debit succeeds,
completing and then reverting restores the Pack usedCredits and the booking
status to their pre-complete values, except completedAt, which is cleared
rather than restored. The hypothesis 0 ≤ usedCredits is the store invariant
under which the Math.max clamp of the credit is exact. -/
theorem complete_then_revert_roundtrip (db : DB) (service : ScheduledService)
    (now : Int) (opId : Nat) (pid : Nat) (packData : Pack)
    (hstatus : service.status = .scheduled)
    (hpid : service.packId = some pid)
    (hfind : findPack db.packs pid = some packData)
    (hused : 0 ≤ packData.usedCredits)
    (hcap : packData.usedCredits + OPERATION_WEIGHTS service.type ≤ packData.totalCredits) :
    ∀ db', completeService service now opId db = .ok db' →
    ∀ db'', revertServiceStatus
        { service with status := .completed, completedAt := some now } db' = .ok db'' →
      (∀ p, findPack db''.packs pid = some p →
        p.usedCredits = packData.usedCredits) ∧
      ∀ s ∈ db''.services, s.id = service.id →
        s.status = service.status ∧ s.completedAt = none := by
  intro db' hdb' db'' hdb''
  have hw := weight_pos service.type
  have hrun : completeService service now opId db = .ok
      { db with
        packs := updateById Pack.id pid
          (fun p => { p with
            usedCredits := packData.usedCredits + OPERATION_WEIGHTS service.type
            isActive :=
              if packData.usedCredits + OPERATION_WEIGHTS service.type ≥ packData.totalCredits
              then false else p.isActive })
          db.packs
        operations := db.operations ++
          [{ id := opId, packId := pid, clientId := service.clientId,
             date := service.scheduledDate, type := service.type,
             weight := OPERATION_WEIGHTS service.type }]
        services := updateById ScheduledService.id service.id
          (fun s => { s with status := .completed, completedAt := some now })
          db.services } := by
    simp only [completeService, hpid, hfind]
    rw [if_neg (by omega)]
  rw [hrun] at hdb'
  cases hdb'
  have hf1 : findPack
      (updateById Pack.id pid
        (fun p => { p with
          usedCredits := packData.usedCredits + OPERATION_WEIGHTS service.type
          isActive :=
            if packData.usedCredits + OPERATION_WEIGHTS service.type ≥ packData.totalCredits
            then false else p.isActive })
        db.packs) pid
      = some { packData with
          usedCredits := packData.usedCredits + OPERATION_WEIGHTS service.type
          isActive :=
            if packData.usedCredits + OPERATION_WEIGHTS service.type ≥ packData.totalCredits
            then false else packData.isActive } := by
    have h1 := findById_updateById Pack.id pid
      (fun p => { p with
        usedCredits := packData.usedCredits + OPERATION_WEIGHTS service.type
        isActive :=
          if packData.usedCredits + OPERATION_WEIGHTS service.type ≥ packData.totalCredits
          then false else p.isActive })
      (fun p => rfl) db.packs
    have h2 : findById Pack.id pid db.packs = some packData := hfind
    exact h1.trans (by rw [h2]; rfl)
  simp only [revertServiceStatus, hpid] at hdb''
  rw [hf1] at hdb''
  cases hdb''
  constructor
  · intro p hp
    dsimp only at hp
    simp only [findPack] at hp
    rw [findById_updateById Pack.id pid _ (by intro q; rfl) _,
      findById_updateById Pack.id pid _ (by intro q; rfl) _,
      show findById Pack.id pid db.packs = some packData from hfind] at hp
    simp only [Option.map_some'] at hp
    have hpe := Option.some.inj hp
    rw [← hpe]
    dsimp only
    omega
  · intro s hs hsid
    obtain ⟨a, hal, ha⟩ := mem_updateById ScheduledService.id service.id _ _ s hs
    by_cases hid : a.id = service.id
    · rw [if_pos hid] at ha
      subst ha
      exact ⟨by rw [hstatus], rfl⟩
    · rw [if_neg hid] at ha
      subst ha
      exact absurd hsid hid

/-- The completed form of c3svc, as the UI holds it after completeService. -/
def c4svcCompleted : ScheduledService :=
  { c3svc with status := .completed, completedAt := some 500 }

/-- Store after completing c3svc. -/
def c4db1 : DB := dbAfter (completeService c3svc 500 77 c3db) c3db

/-- Store after completing and then reverting c3svc. -/
def c4db2 : DB := dbAfter (revertServiceStatus c4svcCompleted c4db1) c4db1

/-- C4 witness: on the concrete total 8 / used 7 pack, complete then revert
brings usedCredits back to 7. -/
theorem complete_then_revert_roundtrip_witness :
    (findPack c4db2.packs 1).map Pack.usedCredits = some (7 : Int) := by
  have h := complete_then_revert_roundtrip c3db c3svc 500 77 1 c3pack rfl rfl rfl
    (by decide) (by decide) c4db1 rfl c4db2 rfl
  have hx : findPack c4db2.packs 1
      = some { id := 1, clientId := 2, serviceType := .walk,
               totalCredits := 8, usedCredits := 7, isActive := true } := by decide
  have hy := h.1 _ hx
  rw [hx, Option.map_some', hy]
  decide

/-! ### C5: the credit performed by a reversal -/

/-- C5: for every completed pack-linked booking whose Pack exists, revert
writes usedCredits = max(0, usedCredits - weight(type)), forces isActive to
true, and deletes every Operation matching the booking packId, clientId and
scheduledDate; when no Operation matches, the deletion is a no-op while the
balance is still restored by the declared weight. -/
theorem revertService_credit (db : DB) (service : ScheduledService)
    (pid : Nat) (packData : Pack)
    (hstatus : service.status = .completed)
    (hpid : service.packId = some pid)
    (hfind : findPack db.packs pid = some packData) :
    (∃ db', revertServiceStatus service db = .ok db') ∧
    ∀ db', revertServiceStatus service db = .ok db' →
      findPack db'.packs pid = some { packData with
        usedCredits := max 0 (packData.usedCredits - OPERATION_WEIGHTS service.type)
        isActive := true } ∧
      db'.operations = db.operations.filter (fun op => !(operationMatches service pid op)) ∧
      ((∀ op ∈ db.operations, operationMatches service pid op = false) →
        db'.operations = db.operations) := by
  have hrun : revertServiceStatus service db = .ok
      { db with
        operations := db.operations.filter fun op => !(operationMatches service pid op)
        packs := updateById Pack.id pid
          (fun p => { p with
            usedCredits := max 0 (packData.usedCredits - OPERATION_WEIGHTS service.type)
            isActive := true })
          db.packs
        services := updateById ScheduledService.id service.id
          (fun s => { s with status := .scheduled, completedAt := none })
          db.services } := by
    simp only [revertServiceStatus, hstatus, hpid, hfind]
  refine ⟨⟨_, hrun⟩, fun db' hdb' => ?_⟩
  rw [hrun] at hdb'
  cases hdb'
  refine ⟨?_, rfl, ?_⟩
  · have h1 := findById_updateById Pack.id pid
      (fun p => { p with
        usedCredits := max 0 (packData.usedCredits - OPERATION_WEIGHTS service.type)
        isActive := true })
      (fun p => rfl) db.packs
    have h2 : findById Pack.id pid db.packs = some packData := hfind
    exact h1.trans (by rw [h2]; rfl)
  · intro hnone
    apply List.filter_eq_self.mpr
    intro op hop
    simp [hnone op hop]

/-- Pack for the reversal scenarios: total 8, used 5, already closed. -/
def c5pack : Pack :=
  { id := 1, clientId := 2, serviceType := .walk,
    totalCredits := 8, usedCredits := 5, isActive := false }

/-- A completed walk booking on c5pack dated 100. -/
def c5svc : ScheduledService :=
  { id := 10, clientId := 2, packId := some 1, scheduledDate := 100,
    scheduledTime := "07:30-08:00", type := .walk,
    status := .completed, completedAt := some 500 }

/-- The Operation matching c5svc (same pack, client and date). -/
def c5op1 : Operation :=
  { id := 50, packId := 1, clientId := 2, date := 100, type := .walk, weight := 1 }

/-- An Operation with a different date, which the reversal must keep. -/
def c5op2 : Operation :=
  { id := 51, packId := 1, clientId := 2, date := 200, type := .walk, weight := 1 }

def c5db : DB := { packs := [c5pack], operations := [c5op1, c5op2], services := [c5svc] }

def c5db2 : DB := dbAfter (revertServiceStatus c5svc c5db) c5db

/-- C5 witness: reverting c5svc restores used 5 to 4, reactivates the pack
and deletes exactly the matching Operation. -/
theorem revertService_credit_witness :
    findPack c5db2.packs 1
        = some { id := 1, clientId := 2, serviceType := .walk,
                 totalCredits := 8, usedCredits := 4, isActive := true } ∧
      c5db2.operations = [c5op2] := by
  obtain ⟨-, h2⟩ := revertService_credit c5db c5svc 1 c5pack rfl rfl rfl
  obtain ⟨hpk, hops, -⟩ := h2 c5db2 rfl
  exact ⟨hpk.trans (by decide), hops.trans (by decide)⟩

/-! ### C10: the reversal deletes every matching Operation -/

/-- C10: when a completed pack-linked booking is reverted, every Operation
whose packId, clientId and date equal the booking packId, clientId and
scheduledDate is deleted, not just one, while usedCredits is restored by only
that one booking weight. -/
theorem revert_deletes_all_matching_operations (db : DB) (service : ScheduledService)
    (pid : Nat) (packData : Pack)
    (hstatus : service.status = .completed)
    (hpid : service.packId = some pid)
    (hfind : findPack db.packs pid = some packData) :
    ∀ db', revertServiceStatus service db = .ok db' →
      (∀ op, operationMatches service pid op = true → op ∉ db'.operations) ∧
      ∀ p, findPack db'.packs pid = some p →
        p.usedCredits = max 0 (packData.usedCredits - OPERATION_WEIGHTS service.type) := by
  intro db' hdb'
  have hrun : revertServiceStatus service db = .ok
      { db with
        operations := db.operations.filter fun op => !(operationMatches service pid op)
        packs := updateById Pack.id pid
          (fun p => { p with
            usedCredits := max 0 (packData.usedCredits - OPERATION_WEIGHTS service.type)
            isActive := true })
          db.packs
        services := updateById ScheduledService.id service.id
          (fun s => { s with status := .scheduled, completedAt := none })
          db.services } := by
    simp only [revertServiceStatus, hstatus, hpid, hfind]
  rw [hrun] at hdb'
  cases hdb'
  constructor
  · intro op hmatch hmem
    have hin := List.mem_filter.mp hmem
    rw [hmatch] at hin
    simp at hin
  · intro p hp
    dsimp only at hp
    simp only [findPack] at hp
    rw [findById_updateById Pack.id pid _ (by intro q; rfl) _,
      show findById Pack.id pid db.packs = some packData from hfind] at hp
    simp only [Option.map_some'] at hp
    have hpe := Option.some.inj hp
    rw [← hpe]

/-- Fully used pack for the shared-date scenario. -/
def c10pack : Pack :=
  { id := 1, clientId := 2, serviceType := .walk,
    totalCredits := 8, usedCredits := 8, isActive := false }

/-- First completed walk booking, date 100. -/
def c10svcA : ScheduledService :=
  { id := 10, clientId := 2, packId := some 1, scheduledDate := 100,
    scheduledTime := "07:30-08:00", type := .walk,
    status := .completed, completedAt := some 500 }

/-- Second completed walk booking on the same pack, client and date. -/
def c10svcB : ScheduledService :=
  { id := 11, clientId := 2, packId := some 1, scheduledDate := 100,
    scheduledTime := "08:00-08:30", type := .walk,
    status := .completed, completedAt := some 501 }

/-- Operation created by completing c10svcA. -/
def c10opA : Operation :=
  { id := 50, packId := 1, clientId := 2, date := 100, type := .walk, weight := 1 }

/-- Operation created by completing c10svcB: same packId, clientId and date. -/
def c10opB : Operation :=
  { id := 51, packId := 1, clientId := 2, date := 100, type := .walk, weight := 1 }

def c10db : DB :=
  { packs := [c10pack], operations := [c10opA, c10opB], services := [c10svcA, c10svcB] }

def c10db2 : DB := dbAfter (revertServiceStatus c10svcA c10db) c10db

/-- C10 witness: reverting only c10svcA deletes the Operation records of both
bookings (they share packId, clientId and date) while the pack balance goes
down by just the one weight, from 8 to 7. -/
theorem revert_deletes_all_matching_operations_witness :
    c10opA ∉ c10db2.operations ∧ c10opB ∉ c10db2.operations ∧
      (findPack c10db2.packs 1).map Pack.usedCredits = some (7 : Int) := by
  obtain ⟨hdel, hused⟩ :=
    revert_deletes_all_matching_operations c10db c10svcA 1 c10pack rfl rfl rfl c10db2 rfl
  refine ⟨hdel c10opA (by decide), hdel c10opB (by decide), ?_⟩
  have hx : findPack c10db2.packs 1
      = some { id := 1, clientId := 2, serviceType := .walk,
               totalCredits := 8, usedCredits := 7, isActive := true } := by decide
  have hy := hused _ hx
  rw [hx, Option.map_some', hy]
  decide

/-! ### C6: sitter packs are not truly unlimited -/

/-- Sitter pack at the 9999 ceiling minus one credit. -/
def c6pack : Pack :=
  { id := 1, clientId := 2, serviceType := .sitter,
    totalCredits := 9999, usedCredits := 9998, isActive := true }

/-- A scheduled full_day booking (weight 2) on c6pack. -/
def c6svc : ScheduledService :=
  { id := 10, clientId := 2, packId := some 1, scheduledDate := 100,
    scheduledTime := "", type := .full_day, status := .scheduled,
    completedAt := none }

/-- A scheduled walk booking (weight 1) on c6pack. -/
def c6svcWalk : ScheduledService :=
  { id := 11, clientId := 2, packId := some 1, scheduledDate := 100,
    scheduledTime := "", type := .walk, status := .scheduled,
    completedAt := none }

def c6db : DB := { packs := [c6pack], operations := [], services := [c6svc, c6svcWalk] }

/-- C6 counterexample: a sitter pack is persisted with totalCredits 9999 and
the completion capacity check is not skipped for it: at usedCredits 9998 a
full_day completion fails with InsufficientCredits, and a walk completion
auto-deactivates the pack (isActive becomes false), contradicting the claim
that a sitter pack can never fail the check and is never deactivated. -/
theorem sitter_not_unlimited_counterexample :
    completeService c6svc 500 77 c6db = .error .insufficientCredits ∧
      (findPack (dbAfter (completeService c6svcWalk 500 78 c6db) c6db).packs 1).map
          Pack.isActive = some false := by
  exact ⟨rfl, by decide⟩

/-- C6 (amended): a sitter pack is created with totalCredits = 9999 rather
than a true infinity (packFormTotalCredits), and the capacity check is not
skipped for it; completion nevertheless succeeds without deactivating the
pack whenever usedCredits + weight(type) stays strictly below 9999. -/
theorem sitter_pack_effectively_unlimited (db : DB) (service : ScheduledService)
    (now : Int) (opId : Nat) (pid : Nat) (packData : Pack) (n : Int)
    (hpid : service.packId = some pid)
    (hfind : findPack db.packs pid = some packData)
    (htot : packData.totalCredits = packFormTotalCredits .sitter n)
    (hbelow : packData.usedCredits + OPERATION_WEIGHTS service.type < 9999) :
    (∃ db', completeService service now opId db = .ok db') ∧
    ∀ db', completeService service now opId db = .ok db' →
      findPack db'.packs pid = some { packData with
        usedCredits := packData.usedCredits + OPERATION_WEIGHTS service.type } := by
  have htot9999 : packData.totalCredits = 9999 := by
    simpa [packFormTotalCredits] using htot
  have hrun : completeService service now opId db = .ok
      { db with
        packs := updateById Pack.id pid
          (fun p => { p with
            usedCredits := packData.usedCredits + OPERATION_WEIGHTS service.type
            isActive :=
              if packData.usedCredits + OPERATION_WEIGHTS service.type ≥ packData.totalCredits
              then false else p.isActive })
          db.packs
        operations := db.operations ++
          [{ id := opId, packId := pid, clientId := service.clientId,
             date := service.scheduledDate, type := service.type,
             weight := OPERATION_WEIGHTS service.type }]
        services := updateById ScheduledService.id service.id
          (fun s => { s with status := .completed, completedAt := some now })
          db.services } := by
    simp only [completeService, hpid, hfind]
    rw [if_neg (by omega)]
  refine ⟨⟨_, hrun⟩, fun db' hdb' => ?_⟩
  rw [hrun] at hdb'
  cases hdb'
  have h1 := findById_updateById Pack.id pid
    (fun p => { p with
      usedCredits := packData.usedCredits + OPERATION_WEIGHTS service.type
      isActive :=
        if packData.usedCredits + OPERATION_WEIGHTS service.type ≥ packData.totalCredits
        then false else p.isActive })
    (fun p => rfl) db.packs
  have h2 : findById Pack.id pid db.packs = some packData := hfind
  refine h1.trans ?_
  rw [h2]
  simp only [Option.map_some']
  rw [if_neg (by omega)]

/-- Sitter pack far from the ceiling, for the amended C6 witness. -/
def c6okdb : DB :=
  { packs := [{ id := 1, clientId := 2, serviceType := .sitter,
                totalCredits := 9999, usedCredits := 100, isActive := true }],
    operations := [], services := [c6svcWalk] }

/-- C6 witness: walk completion on a sitter pack with used 100 of 9999
succeeds with used 101 and the pack still active. -/
theorem sitter_pack_effectively_unlimited_witness :
    findPack (dbAfter (completeService c6svcWalk 500 79 c6okdb) c6okdb).packs 1
      = some { id := 1, clientId := 2, serviceType := .sitter,
               totalCredits := 9999, usedCredits := 101, isActive := true } := by
  obtain ⟨-, h2⟩ := sitter_pack_effectively_unlimited c6okdb c6svcWalk 500 79 1
    { id := 1, clientId := 2, serviceType := .sitter,
      totalCredits := 9999, usedCredits := 100, isActive := true }
    8 rfl rfl (by decide) (by decide)
  exact (h2 _ rfl).trans (by decide)

/-! ### C7: revert on a cancelled booking is not rejected -/

/-- A cancelled booking with no pack. -/
def c7svc : ScheduledService :=
  { id := 5, clientId := 2, packId := none, scheduledDate := 100,
    scheduledTime := "", type := .walk, status := .cancelled,
    completedAt := none }

def c7db : DB := { packs := [], operations := [], services := [c7svc] }

/-- C7 counterexample: revertServiceStatus applied to a cancelled booking
does not fail with any error, and the booking does not stay cancelled: the
call succeeds and rewrites the status to scheduled. -/
theorem revert_on_cancelled_counterexample :
    revertServiceStatus c7svc c7db
        = .ok { c7db with
            services := [{ c7svc with status := .scheduled, completedAt := none }] } ∧
      (findService (dbAfter (revertServiceStatus c7svc c7db) c7db).services 5).map
          ScheduledService.status ≠ some .cancelled := by
  exact ⟨rfl, by decide⟩

/-- C7 (amended): the code performs no transition validation and has no
InvalidTransition error: revert applied to a cancelled booking succeeds,
touching neither packs nor operations and unconditionally setting the status
to scheduled with completedAt cleared; the schedule, however, filters
cancelled bookings out of its service list (isActiveService), so the UI
never offers revert on one. -/
theorem revert_on_cancelled (db : DB) (service : ScheduledService)
    (hstatus : service.status = .cancelled) :
    (∃ db', revertServiceStatus service db = .ok db') ∧
    (∀ db', revertServiceStatus service db = .ok db' →
      db'.packs = db.packs ∧ db'.operations = db.operations ∧
      ∀ s ∈ db'.services, s.id = service.id →
        s.status = .scheduled ∧ s.completedAt = none) ∧
    isActiveService service = false := by
  have hrun : revertServiceStatus service db = .ok
      { db with
        services := updateById ScheduledService.id service.id
          (fun s => { s with status := .scheduled, completedAt := none })
          db.services } := by
    rcases hpk : service.packId with - | pid <;>
      simp only [revertServiceStatus, hstatus, hpk]
  refine ⟨⟨_, hrun⟩, fun db' hdb' => ?_, by simp [isActiveService, hstatus]⟩
  rw [hrun] at hdb'
  cases hdb'
  refine ⟨rfl, rfl, ?_⟩
  intro s hs hsid
  obtain ⟨a, hal, ha⟩ := mem_updateById ScheduledService.id service.id _ db.services s hs
  by_cases hid : a.id = service.id
  · rw [if_pos hid] at ha
    subst ha
    exact ⟨rfl, rfl⟩
  · rw [if_neg hid] at ha
    subst ha
    exact absurd hsid hid

/-- C7 witness: reverting the concrete cancelled booking leaves the empty
operations list untouched, and that booking is excluded from the schedule
filter. -/
theorem revert_on_cancelled_witness :
    (dbAfter (revertServiceStatus c7svc c7db) c7db).operations = [] ∧
      isActiveService c7svc = false := by
  obtain ⟨-, h2, h3⟩ := revert_on_cancelled c7db c7svc rfl
  exact ⟨((h2 _ rfl).2.1).trans (by decide), h3⟩

/-! ### C8: the recurrence expander -/

/-- C8 counterexample: the range 2024-01-01 .. 2024-01-15 (inclusive, as the
while loop iterates) contains five Mondays and Wednesdays, not six: Jan 1, 8
and 15 are Mondays and Jan 3 and 10 are Wednesdays (Jan 17 falls outside the
range), so the expander does not return six dates. -/
theorem generateRecurringDates_count_counterexample :
    (generateRecurringDates (daysFromCivil 2024 1 1) (daysFromCivil 2024 1 15)
      [1, 3]).length ≠ 6 := by
  decide

/-- C8 (amended): the expander applied to start 2024-01-01, end 2024-01-15
and weekday set Monday, Wednesday returns the five matching dates in
ascending order, and every recurring request with end at most start or with
an empty weekday set fails form validation before any booking is created. -/
theorem generateRecurringDates_spec :
    generateRecurringDates (daysFromCivil 2024 1 1) (daysFromCivil 2024 1 15) [1, 3]
        = [daysFromCivil 2024 1 1, daysFromCivil 2024 1 3, daysFromCivil 2024 1 8,
           daysFromCivil 2024 1 10, daysFromCivil 2024 1 15] ∧
      List.Chain' (· < ·)
        (generateRecurringDates (daysFromCivil 2024 1 1) (daysFromCivil 2024 1 15)
          [1, 3]) ∧
      ∀ s e : Int, ∀ wds : List Int, (e ≤ s ∨ wds = []) →
        handleSubmitRecurring s e wds = none := by
  refine ⟨by decide, ?_, ?_⟩
  · have h1 : generateRecurringDates (daysFromCivil 2024 1 1) (daysFromCivil 2024 1 15)
        [1, 3] = [19723, 19725, 19730, 19732, 19737] := by decide
    rw [h1]
    norm_num [List.chain'_cons, List.chain'_singleton]
  intro s e wds h
  rcases h with h | h
  · simp [handleSubmitRecurring, recurrenceValid, not_lt.mpr h]
  · subst h
    simp [handleSubmitRecurring, recurrenceValid]

/-- C8 witness: validation rejects an end date equal to the start date and an
empty weekday set, each at concrete inputs. -/
theorem generateRecurringDates_spec_witness :
    handleSubmitRecurring 10 10 [1] = none ∧ handleSubmitRecurring 0 5 [] = none := by
  have h := generateRecurringDates_spec
  exact ⟨h.2.2 10 10 [1] (Or.inl (by decide)), h.2.2 0 5 [] (Or.inr rfl)⟩

/-! ### C9: the slot grid occupancy -/

/-- C9 counterexample: the last catalog slot is a recognized start, yet a 60
minute booking starting there occupies one slot, not two: the for loop bound
clamps at the end of the catalog. -/
theorem getOccupiedSlots_last_slot_counterexample :
    (TIME_SLOTS.map TimeSlot.value).contains "18:00-18:30" = true ∧
      (getOccupiedSlots "18:00-18:30" 60).length ≠ 2 := by
  exact ⟨by decide, by decide⟩

/-- C9 (amended): for every recognized start slot other than the last catalog
entry, occupiedSlots(start, 60) is exactly the two consecutive catalog codes
beginning at start; occupiedSlots(start, 30) is always the singleton of
start; and in general a booking with recognized start at catalog index i and
duration d from the form options occupies
min(ceil(d / 30), catalog length - i) slots, clamped at the catalog end. -/
theorem getOccupiedSlots_spec :
    (∀ i : Nat, i < TIME_SLOTS.length - 1 →
      getOccupiedSlots (TIME_SLOTS.getD i default).value 60
        = [(TIME_SLOTS.getD i default).value, (TIME_SLOTS.getD (i + 1) default).value]) ∧
    (∀ i : Nat, i < TIME_SLOTS.length →
      getOccupiedSlots (TIME_SLOTS.getD i default).value 30
        = [(TIME_SLOTS.getD i default).value]) ∧
    (∀ i : Nat, i < TIME_SLOTS.length → ∀ d ∈ DURATION_OPTIONS,
      (getOccupiedSlots (TIME_SLOTS.getD i default).value d).length
        = min ((d + 29) / 30) (TIME_SLOTS.length - i)) := by
  refine ⟨?_, ?_, ?_⟩ <;> decide

/-- C9 witness: a 60 minute booking at 07:30 occupies the 07:30 and 08:00
slots, by the amended theorem at catalog index 1. -/
theorem getOccupiedSlots_spec_witness :
    getOccupiedSlots "07:30-08:00" 60 = ["07:30-08:00", "08:00-08:30"] := by
  have h := getOccupiedSlots_spec
  exact (h.1 1 (by decide)).trans (by decide)

end PasseioPet
